import Mathlib

/-!
Verification of the paper-trading execution and position-lifecycle engine of the
FUTBOT repository. The definitions below are a shallow embedding, over exact
rationals, of the Python sources:

  * `bot/execution/paper_trader.py`  (class PaperTrader)
  * `bot/core/engine.py`             (the kline trigger handler `_on_kline`)
  * `bot/risk/circuit_breaker.py`    (class CircuitBreaker)
  * `bot/core/models.py`             (Position, TradeDecision)
  * `bot/config/settings.py`         (fee / slippage / sizing constants)

Modelling conventions:
  * Python floats are modelled as `ℚ` (exact arithmetic, as the spec reasons
    about exact balance identities).
  * The `logging` and database persistence calls are side effects with no
    bearing on ledger state and are omitted; the rounding applied when
    persisting a closed `Trade` (`round(net_pnl, 4)`) affects only the stored
    record, never the balance, and is likewise omitted.
  * Python dicts keyed by pair are modelled as association lists with
    lookup / erase / modify helpers.
  * Python truthiness on a numeric field (`if decision.leverage`,
    `if position.stop_loss`) is modelled explicitly: `none` and `some 0`
    both count as falsy.
  * `datetime` values are modelled as rational timestamps in seconds;
    calendar days (for the circuit breaker) as plain strings.
  * Division on `ℚ` is total with `x / 0 = 0`; the Python code would raise on
    the corresponding inputs (e.g. `entry_price = 0`), which no claim touches.
-/

inductive Direction : Type
| LONG : Direction
| SHORT : Direction
deriving DecidableEq

inductive Trigger : Type
| liq : Trigger
| sl : Trigger
| tp : Trigger
deriving DecidableEq

/-- Core fields of `core/models.py` `Position` (pydantic model). The
record-keeping fields (`id`, reasoning strings, indicator snapshot) carry no
ledger semantics and are dropped. -/
structure Position : Type where
  pair : String
  direction : Direction
  entry_price : ℚ
  current_price : ℚ
  quantity : ℚ
  leverage : ℚ
  stop_loss : ℚ
  take_profit : ℚ
  margin_used : ℚ
  unrealized_pnl : ℚ
  entry_fee : ℚ
  funding_paid : ℚ
  opened_at : ℚ
  trailing_stop_distance : Option ℚ
  highest_price : ℚ
  lowest_price : ℚ
  liquidation_price : ℚ
deriving DecidableEq

/-- The fields of `core/models.py` `TradeDecision` consumed by
`PaperTrader.open_position`. -/
structure TradeDecision : Type where
  pair : String
  direction : Direction
  leverage : Option ℚ
  position_size_pct : Option ℚ
  stop_loss : Option ℚ
  take_profit : Option ℚ
deriving DecidableEq

/-- The constants of `config/settings.py` used by the execution layer. -/
structure Settings : Type where
  default_leverage : ℚ
  default_position_pct : ℚ
  taker_fee : ℚ
  slippage_major : ℚ
  slippage_alt : ℚ
deriving DecidableEq

/-- `MAJOR_PAIRS = {"BTCUSDT", "ETHUSDT"}` from `config/settings.py`. -/
def MAJOR_PAIRS : List String := ["BTCUSDT", "ETHUSDT"]

/-- `settings.slippage_major if pair in MAJOR_PAIRS else settings.slippage_alt`. -/
def slipFor (s : Settings) (pair : String) : ℚ :=
  if pair ∈ MAJOR_PAIRS then s.slippage_major else s.slippage_alt

/-- Python `x or d` on an optional numeric field: `None` and `0` both fall
back to the default. -/
def orDefault (x : Option ℚ) (d : ℚ) : ℚ :=
  match x with
  | none => d
  | some v => if v = 0 then d else v

/-- Python `x or 0` on an optional numeric field. -/
def orZero (x : Option ℚ) : ℚ := x.getD 0

/-- `decision.leverage or settings.default_leverage`. -/
def effLev (d : TradeDecision) (s : Settings) : ℚ :=
  orDefault d.leverage s.default_leverage

/-- `decision.position_size_pct or settings.default_position_pct`. -/
def effPct (d : TradeDecision) (s : Settings) : ℚ :=
  orDefault d.position_size_pct s.default_position_pct

/-- The `pair -> Position` dict of the trader, as an association list. -/
abbrev PosMap : Type := List (String × Position)

def posLookup (k : String) : PosMap → Option Position
  | [] => none
  | e :: rest => if e.1 = k then some e.2 else posLookup k rest

def posErase (k : String) (l : PosMap) : PosMap :=
  l.filter (fun e => decide (e.1 ≠ k))

def posInsert (k : String) (v : Position) (l : PosMap) : PosMap :=
  (k, v) :: posErase k l

def posModify (k : String) (f : Position → Position) : PosMap → PosMap
  | [] => []
  | (k', v) :: rest => (if k' = k then (k', f v) else (k', v)) :: posModify k f rest

/-- Ledger state of `PaperTrader` (`__init__`): balance, initial balance, the
open-positions dict, and the private `_peak_balance`. -/
structure PaperTrader : Type where
  balance : ℚ
  initial_balance : ℚ
  positions : PosMap
  peak_balance : ℚ
deriving DecidableEq

/-- `PaperTrader.__init__`: balance = initial = peak, no open positions. -/
def PaperTrader.start (b : ℚ) : PaperTrader :=
  { balance := b, initial_balance := b, positions := [], peak_balance := b }

/-- `maint_rate = 0.004` (Binance default maintenance margin rate). -/
def maint_rate : ℚ := 4 / 1000

/-- Entry slippage of `open_position`: LONG buys above market, SHORT below. -/
def entry_price_of (s : Settings) (d : TradeDecision) (cp : ℚ) : ℚ :=
  match d.direction with
  | .LONG => cp * (1 + slipFor s d.pair)
  | .SHORT => cp * (1 - slipFor s d.pair)

/-- `margin = self.balance * pos_pct`. -/
def open_margin (s : Settings) (t : PaperTrader) (d : TradeDecision) : ℚ :=
  t.balance * effPct d s

/-- `notional = margin * leverage`. -/
def open_notional (s : Settings) (t : PaperTrader) (d : TradeDecision) : ℚ :=
  open_margin s t d * effLev d s

/-- `entry_fee = notional * settings.taker_fee`. -/
def open_entry_fee (s : Settings) (t : PaperTrader) (d : TradeDecision) : ℚ :=
  open_notional s t d * s.taker_fee

/-- `total_cost = margin + entry_fee`. -/
def open_total_cost (s : Settings) (t : PaperTrader) (d : TradeDecision) : ℚ :=
  open_margin s t d + open_entry_fee s t d

/-- `quantity = notional / entry_price`. -/
def open_quantity (s : Settings) (t : PaperTrader) (d : TradeDecision) (cp : ℚ) : ℚ :=
  open_notional s t d / entry_price_of s d cp

/-- Isolated-margin liquidation price:
LONG `entry * (1 - 1/leverage + maint_rate)`, SHORT mirrored. -/
def open_liq_price (s : Settings) (t : PaperTrader) (d : TradeDecision) (cp : ℚ) : ℚ :=
  match d.direction with
  | .LONG => entry_price_of s d cp * (1 - 1 / effLev d s + maint_rate)
  | .SHORT => entry_price_of s d cp * (1 + 1 / effLev d s - maint_rate)

/-- The `Position(...)` literal built by `open_position`. -/
def open_new_position (s : Settings) (t : PaperTrader) (d : TradeDecision)
    (cp now : ℚ) : Position :=
  { pair := d.pair
    direction := d.direction
    entry_price := entry_price_of s d cp
    current_price := cp
    quantity := open_quantity s t d cp
    leverage := effLev d s
    stop_loss := orZero d.stop_loss
    take_profit := orZero d.take_profit
    margin_used := open_margin s t d
    unrealized_pnl := 0
    entry_fee := open_entry_fee s t d
    funding_paid := 0
    opened_at := now
    trailing_stop_distance := none
    highest_price := entry_price_of s d cp
    lowest_price := entry_price_of s d cp
    liquidation_price := open_liq_price s t d cp }

/-- `PaperTrader.open_position` (paper_trader.py lines 25-109). Returns `none`
on the two rejection paths (duplicate pair, insufficient balance); otherwise
debits `margin + entry_fee` and records the new position. -/
def open_position (s : Settings) (t : PaperTrader) (d : TradeDecision)
    (cp now : ℚ) : Option (PaperTrader × Position) :=
  if (posLookup d.pair t.positions).isSome then none
  else if t.balance < open_total_cost s t d then none
  else
    some ({ t with
              balance := t.balance - open_total_cost s t d,
              positions := posInsert d.pair (open_new_position s t d cp now) t.positions },
          open_new_position s t d cp now)

/-- Exit slippage of `close_position`: LONG sells below market, SHORT buys
above. -/
def exit_price_of (s : Settings) (dir : Direction) (pair : String) (cp : ℚ) : ℚ :=
  match dir with
  | .LONG => cp * (1 - slipFor s pair)
  | .SHORT => cp * (1 + slipFor s pair)

/-- `exit_fee = (quantity * exit_price) * taker_fee`. -/
def close_exit_fee (s : Settings) (p : Position) (pair : String) (cp : ℚ) : ℚ :=
  p.quantity * exit_price_of s p.direction pair cp * s.taker_fee

/-- Direction-signed raw PnL of `close_position`. -/
def raw_pnl_of (p : Position) (exit_price : ℚ) : ℚ :=
  match p.direction with
  | .LONG => (exit_price - p.entry_price) * p.quantity
  | .SHORT => (p.entry_price - exit_price) * p.quantity

/-- `net_pnl = raw_pnl - entry_fee - exit_fee - funding_paid`. -/
def close_net_pnl (s : Settings) (p : Position) (pair : String) (cp : ℚ) : ℚ :=
  raw_pnl_of p (exit_price_of s p.direction pair cp)
    - p.entry_fee - close_exit_fee s p pair cp - p.funding_paid

/-- Balance after `close_position`: `self.balance += margin_used + net_pnl`. -/
def close_new_balance (s : Settings) (t : PaperTrader) (p : Position)
    (pair : String) (cp : ℚ) : ℚ :=
  t.balance + p.margin_used + close_net_pnl s p pair cp

/-- The exit economics reported on a close (the fields of the persisted
`Trade` record that carry ledger semantics). -/
structure CloseInfo : Type where
  exit_price : ℚ
  exit_fee : ℚ
  raw_pnl : ℚ
  net_pnl : ℚ
  pnl_pct : ℚ
  margin_used : ℚ
deriving DecidableEq

/-- Ledger state after a successful close: balance credited with
`margin_used + net_pnl`, `_peak_balance = max(_peak_balance, self.balance)`,
position deleted. -/
def close_result_trader (s : Settings) (t : PaperTrader) (p : Position)
    (pair : String) (cp : ℚ) : PaperTrader :=
  { t with
      balance := close_new_balance s t p pair cp,
      peak_balance := max t.peak_balance (close_new_balance s t p pair cp),
      positions := posErase pair t.positions }

/-- The exit economics recorded on a successful close. -/
def close_result_info (s : Settings) (p : Position) (pair : String) (cp : ℚ) :
    CloseInfo :=
  { exit_price := exit_price_of s p.direction pair cp
    exit_fee := close_exit_fee s p pair cp
    raw_pnl := raw_pnl_of p (exit_price_of s p.direction pair cp)
    net_pnl := close_net_pnl s p pair cp
    pnl_pct := if 0 < p.margin_used then close_net_pnl s p pair cp / p.margin_used else 0
    margin_used := p.margin_used }

/-- `PaperTrader.close_position` (paper_trader.py lines 111-185). Returns
`none` when there is no open position for the pair; otherwise credits
`margin_used + net_pnl`, raises `_peak_balance` to `max(_peak_balance,
self.balance)`, and deletes the position. -/
def close_position (s : Settings) (t : PaperTrader) (pair : String) (cp : ℚ) :
    Option (PaperTrader × CloseInfo) :=
  match posLookup pair t.positions with
  | none => none
  | some position =>
    some (close_result_trader s t position pair cp, close_result_info s position pair cp)

/-- Position-level body of `PaperTrader.update_position_price`
(paper_trader.py lines 187-204). -/
def updatePositionPrice (p : Position) (cp : ℚ) : Position :=
  let p1 := { p with current_price := cp }
  let p2 := if p1.highest_price < cp then { p1 with highest_price := cp } else p1
  let p3 := if cp < p2.lowest_price then { p2 with lowest_price := cp } else p2
  { p3 with
      unrealized_pnl :=
        match p3.direction with
        | .LONG => (cp - p3.entry_price) * p3.quantity - p3.funding_paid
        | .SHORT => (p3.entry_price - cp) * p3.quantity - p3.funding_paid }

/-- Position-level body of `PaperTrader.update_trailing_stops`
(paper_trader.py lines 250-265); a no-op when `trailing_stop_distance` is
falsy (`None` or `0`). -/
def updateTrailingStops (p : Position) : Position :=
  match p.trailing_stop_distance with
  | none => p
  | some dist =>
    if dist = 0 then p
    else
      match p.direction with
      | .LONG =>
        if p.stop_loss < p.highest_price - dist
        then { p with stop_loss := p.highest_price - dist } else p
      | .SHORT =>
        if p.lowest_price + dist < p.stop_loss ∨ p.stop_loss = 0
        then { p with stop_loss := p.lowest_price + dist } else p

/-- `PaperTrader.update_position_price` at the ledger level (no-op when the
pair has no open position). -/
def trader_upd_price (t : PaperTrader) (pair : String) (cp : ℚ) : PaperTrader :=
  { t with positions := posModify pair (fun p => updatePositionPrice p cp) t.positions }

/-- `PaperTrader.update_trailing_stops` at the ledger level. -/
def trader_upd_trailing (t : PaperTrader) (pair : String) : PaperTrader :=
  { t with positions := posModify pair updateTrailingStops t.positions }

/-- `PaperTrader.set_trailing_stop` (paper_trader.py lines 267-272). -/
def set_trailing_stop (t : PaperTrader) (pair : String) (dist : ℚ) : PaperTrader :=
  { t with positions := posModify pair (fun p => { p with trailing_stop_distance := some dist }) t.positions }

/-- The `ADJUST` branch of `engine._analyze_pair` (engine.py lines 445-452):
overwrite stop_loss / take_profit when the decision supplies truthy values. -/
def adjust_position (t : PaperTrader) (pair : String) (slv tpv : Option ℚ) : PaperTrader :=
  { t with positions := posModify pair (fun p =>
      let p1 := match slv with
        | none => p
        | some v => if v = 0 then p else { p with stop_loss := v }
      match tpv with
      | none => p1
      | some v => if v = 0 then p1 else { p1 with take_profit := v }) t.positions }

/-- `PaperTrader.apply_funding_rate` (paper_trader.py lines 206-224): longs
pay `notional * rate`, shorts pay the negation; the cost is debited from the
balance and accumulated into `funding_paid`. -/
def apply_funding_rate (t : PaperTrader) (pair : String) (rate : ℚ) :
    PaperTrader × ℚ :=
  match posLookup pair t.positions with
  | none => (t, 0)
  | some position =>
    let notional := position.quantity * position.current_price
    let cost := match position.direction with
      | .LONG => notional * rate
      | .SHORT => -(notional * rate)
    ({ t with
         balance := t.balance - cost,
         positions := posModify pair (fun p => { p with funding_paid := p.funding_paid + cost }) t.positions },
     cost)

/-- Position-level body of `PaperTrader.check_stop_loss_take_profit`
(paper_trader.py lines 226-248): liquidation first, then stop-loss, then
take-profit, with direction-aware comparisons; `stop_loss` / `take_profit`
are Python-truthy tests (zero level is inert), liquidation requires a
strictly positive level. -/
def check_slt (position : Position) (cp : ℚ) : Option Trigger :=
  match position.direction with
  | .LONG =>
    if 0 < position.liquidation_price ∧ cp ≤ position.liquidation_price then some .liq
    else if position.stop_loss ≠ 0 ∧ cp ≤ position.stop_loss then some .sl
    else if position.take_profit ≠ 0 ∧ position.take_profit ≤ cp then some .tp
    else none
  | .SHORT =>
    if 0 < position.liquidation_price ∧ position.liquidation_price ≤ cp then some .liq
    else if position.stop_loss ≠ 0 ∧ position.stop_loss ≤ cp then some .sl
    else if position.take_profit ≠ 0 ∧ cp ≤ position.take_profit then some .tp
    else none

/-- `PaperTrader.check_stop_loss_take_profit` at the ledger level (returns
`none` for an untracked pair). -/
def check_stop_loss_take_profit (t : PaperTrader) (pair : String) (cp : ℚ) :
    Option Trigger :=
  (posLookup pair t.positions).bind (fun p => check_slt p cp)

/-- `PaperTrader.total_equity`: balance + locked margin + unrealized PnL. -/
def total_equity (t : PaperTrader) : ℚ :=
  t.balance + (t.positions.map (fun e => e.2.margin_used)).sum
    + (t.positions.map (fun e => e.2.unrealized_pnl)).sum

/-- `PaperTrader.drawdown_pct`: `(total_equity - _peak_balance) / _peak_balance`,
guarded to `0` when the peak is zero. -/
def drawdown_pct (t : PaperTrader) : ℚ :=
  if t.peak_balance = 0 then 0 else (total_equity t - t.peak_balance) / t.peak_balance

/-- Direction-aware adverse crossing: the comparison that fires liquidation
and stop-loss (`price ≤ level` for LONG, `level ≤ price` for SHORT). -/
def adverseCross : Direction → ℚ → ℚ → Prop
  | .LONG, price, lvl => price ≤ lvl
  | .SHORT, price, lvl => lvl ≤ price

instance instDecAdverseCross (dir : Direction) (price lvl : ℚ) :
    Decidable (adverseCross dir price lvl) := by
  cases dir
  · exact (inferInstance : Decidable (price ≤ lvl))
  · exact (inferInstance : Decidable (lvl ≤ price))

/-- Direction-aware favorable crossing: the comparison that fires take-profit
(`level ≤ price` for LONG, `price ≤ level` for SHORT). -/
def favorCross : Direction → ℚ → ℚ → Prop
  | .LONG, price, lvl => lvl ≤ price
  | .SHORT, price, lvl => price ≤ lvl

instance instDecFavorCross (dir : Direction) (price lvl : ℚ) :
    Decidable (favorCross dir price lvl) := by
  cases dir
  · exact (inferInstance : Decidable (lvl ≤ price))
  · exact (inferInstance : Decidable (price ≤ lvl))

/-- The liquidation level is set (strictly positive) and crossed. -/
def liq_crossed (p : Position) (price : ℚ) : Prop :=
  0 < p.liquidation_price ∧ adverseCross p.direction price p.liquidation_price

/-- The stop-loss level is set (nonzero) and crossed. -/
def sl_crossed (p : Position) (price : ℚ) : Prop :=
  p.stop_loss ≠ 0 ∧ adverseCross p.direction price p.stop_loss

/-- The take-profit level is set (nonzero) and crossed. -/
def tp_crossed (p : Position) (price : ℚ) : Prop :=
  p.take_profit ≠ 0 ∧ favorCross p.direction price p.take_profit

instance instDecLiqCrossed (p : Position) (price : ℚ) : Decidable (liq_crossed p price) := by
  unfold liq_crossed; exact instDecidableAnd

instance instDecSlCrossed (p : Position) (price : ℚ) : Decidable (sl_crossed p price) := by
  unfold sl_crossed; exact instDecidableAnd

instance instDecTpCrossed (p : Position) (price : ℚ) : Decidable (tp_crossed p price) := by
  unfold tp_crossed; exact instDecidableAnd

/-- Grace period of the kline handler (engine.py line 179): 15 seconds. -/
def grace_seconds : ℚ := 15

/-- The candle extreme on the adverse side of a position (low for LONG, high
for SHORT) — the side nearer to triggering a loss. -/
def adverse_extreme (dir : Direction) (high low : ℚ) : ℚ :=
  match dir with
  | .LONG => low
  | .SHORT => high

/-- The candle extreme on the favorable side of a position. -/
def favorable_extreme (dir : Direction) (high low : ℚ) : ℚ :=
  match dir with
  | .LONG => high
  | .SHORT => low

/-- `TradingEngine._on_kline` (engine.py lines 158-221), restricted to its
ledger effect on one pair. Updates the position price and trailing stop with
the candle close, then:
  * within the 15 s grace period, checks only liquidation against the adverse
    candle extreme (low for LONG, high for SHORT) and closes at the
    liquidation price on a hit;
  * otherwise checks SL/TP/liquidation at the adverse extreme, then the
    favorable extreme, then the close price, and closes at the triggered
    level.
Returns the new ledger state and the trigger that fired (if any). The memory /
cooldown bookkeeping carries no ledger semantics and is omitted. -/
def on_kline (s : Settings) (t : PaperTrader) (pair : String)
    (close_price high low now : ℚ) : PaperTrader × Option Trigger :=
  let t2 := trader_upd_trailing (trader_upd_price t pair close_price) pair
  match posLookup pair t2.positions with
  | none => (t2, none)
  | some position =>
    if now - position.opened_at < grace_seconds then
      if liq_crossed position (adverse_extreme position.direction high low) then
        match close_position s t2 pair position.liquidation_price with
        | some r => (r.1, some .liq)
        | none => (t2, some .liq)
      else (t2, none)
    else
      let trig := match check_slt position (adverse_extreme position.direction high low) with
        | some g => some g
        | none =>
          match check_slt position (favorable_extreme position.direction high low) with
          | some g => some g
          | none => check_slt position close_price
      match trig with
      | none => (t2, none)
      | some g =>
        let close_at := match g with
          | .liq => position.liquidation_price
          | .sl => position.stop_loss
          | .tp => position.take_profit
        match close_position s t2 pair close_at with
        | some r => (r.1, some g)
        | none => (t2, some g)

/-- State of `risk/circuit_breaker.py` `CircuitBreaker.__init__`. -/
structure CircuitBreaker : Type where
  daily_start_equity : ℚ
  initial_equity : ℚ
  paused_until : Option ℚ
  stopped_for_day : Bool
  full_stop : Bool
  today : Option String
deriving DecidableEq

/-- The thresholds of `config/settings.py` used by the circuit breaker. -/
structure CBSettings : Type where
  daily_loss_pause_pct : ℚ
  daily_loss_stop_pct : ℚ
  total_drawdown_stop_pct : ℚ
deriving DecidableEq

/-- Pause duration: 4 hours, in seconds. -/
def pause_seconds : ℚ := 4 * 3600

/-- The fresh-threshold tests of `CircuitBreaker.check` (total drawdown, then
daily stop, then daily pause), reached once no sticky state short-circuits. -/
def cbCheckFresh (s : CBSettings) (cb : CircuitBreaker) (current_equity now : ℚ) :
    CircuitBreaker × Bool :=
  if 0 < cb.initial_equity ∧
      (current_equity - cb.initial_equity) / cb.initial_equity ≤ s.total_drawdown_stop_pct then
    ({ cb with full_stop := true }, true)
  else if 0 < cb.daily_start_equity ∧
      (current_equity - cb.daily_start_equity) / cb.daily_start_equity ≤ s.daily_loss_stop_pct then
    ({ cb with stopped_for_day := true }, true)
  else if 0 < cb.daily_start_equity ∧
      (current_equity - cb.daily_start_equity) / cb.daily_start_equity ≤ s.daily_loss_pause_pct ∧
      cb.paused_until = none then
    ({ cb with paused_until := some (now + pause_seconds) }, true)
  else (cb, false)

/-- `CircuitBreaker.check` (circuit_breaker.py lines 39-95): full stop
short-circuits everything, then day stop, then an unexpired pause; an expired
pause is cleared before the fresh threshold tests run. -/
def cbCheck (s : CBSettings) (cb : CircuitBreaker) (current_equity now : ℚ) :
    CircuitBreaker × Bool :=
  if cb.full_stop then (cb, true)
  else if cb.stopped_for_day then (cb, true)
  else
    match cb.paused_until with
    | some u =>
      if now < u then (cb, true)
      else cbCheckFresh s { cb with paused_until := none } current_equity now
    | none => cbCheckFresh s cb current_equity now

/-- `CircuitBreaker.check_new_day` (circuit_breaker.py lines 29-37): on a date
change, reset the daily baseline, day stop and pause — but not `_full_stop`. -/
def cbCheckNewDay (cb : CircuitBreaker) (equity : ℚ) (today : String) : CircuitBreaker :=
  if cb.today ≠ some today then
    { cb with
        today := some today,
        daily_start_equity := equity,
        stopped_for_day := false,
        paused_until := none }
  else cb

/-- `CircuitBreaker.reset_full_stop` (circuit_breaker.py lines 113-116). -/
def cbResetFullStop (cb : CircuitBreaker) : CircuitBreaker :=
  { cb with full_stop := false }

/-- The two circuit-breaker entry points that run automatically during
trading (manual reset excluded). -/
inductive CBOp : Type
| chk : ℚ → ℚ → CBOp
| newDay : ℚ → String → CBOp

def cbApply (s : CBSettings) (cb : CircuitBreaker) : CBOp → CircuitBreaker
  | .chk e now => (cbCheck s cb e now).1
  | .newDay e d => cbCheckNewDay cb e d

def cbRun (s : CBSettings) (cb : CircuitBreaker) (ops : List CBOp) : CircuitBreaker :=
  ops.foldl (cbApply s) cb

/-- The price-update operations that may interleave with trailing-stop
ratcheting on one position (`update_position_price` from the kline /
book-ticker / agg-trade handlers, and `update_trailing_stops`). -/
inductive PriceOp : Type
| upd : ℚ → PriceOp
| trail : PriceOp

def applyPriceOp (p : Position) : PriceOp → Position
  | .upd cp => updatePositionPrice p cp
  | .trail => updateTrailingStops p

/-- Ledger states reachable through the `PaperTrader` interface from a fresh
trader with positive starting balance, via the operations the engine invokes:
open, close, price updates, trailing-stop updates and enabling, funding
application, and the ADJUST branch. -/
inductive Reach (s : Settings) : PaperTrader → Prop
| start (b : ℚ) (hb : 0 < b) : Reach s (PaperTrader.start b)
| opened {t t' : PaperTrader} {pos : Position} (d : TradeDecision) (cp now : ℚ)
    (ht : Reach s t) (h : open_position s t d cp now = some (t', pos)) : Reach s t'
| closed {t t' : PaperTrader} {info : CloseInfo} (pair : String) (cp : ℚ)
    (ht : Reach s t) (h : close_position s t pair cp = some (t', info)) : Reach s t'
| updPrice {t : PaperTrader} (pair : String) (cp : ℚ) (ht : Reach s t) :
    Reach s (trader_upd_price t pair cp)
| updTrail {t : PaperTrader} (pair : String) (ht : Reach s t) :
    Reach s (trader_upd_trailing t pair)
| setTrail {t : PaperTrader} (pair : String) (dist : ℚ) (ht : Reach s t) :
    Reach s (set_trailing_stop t pair dist)
| funded {t : PaperTrader} (pair : String) (rate : ℚ) (ht : Reach s t) :
    Reach s (apply_funding_rate t pair rate).1
| adjusted {t : PaperTrader} (pair : String) (slv tpv : Option ℚ) (ht : Reach s t) :
    Reach s (adjust_position t pair slv tpv)

/-! ### Concrete states used to instantiate the theorems below -/

/-- The real `config/settings.py` defaults: leverage 3, position 0.5 %,
taker fee 0.05 %, slippage 0.01 % (majors) / 0.03 % (alts). -/
def sX : Settings :=
  { default_leverage := 3
    default_position_pct := 1 / 200
    taker_fee := 1 / 2000
    slippage_major := 1 / 10000
    slippage_alt := 3 / 10000 }

def btcPair : String := "BTCUSDT"

def altPair : String := "XRPUSDT"

def dayX : String := "2025-01-01"

/-- A LONG entry decision on BTCUSDT: 1 % of capital at 3x. -/
def dX : TradeDecision :=
  { pair := btcPair
    direction := .LONG
    leverage := some 3
    position_size_pct := some (1 / 100)
    stop_loss := some 90
    take_profit := some 120 }

/-- A SHORT entry decision used for the rejection scenario: 300 % of capital. -/
def dRejX : TradeDecision :=
  { pair := altPair
    direction := .SHORT
    leverage := some 3
    position_size_pct := some 3
    stop_loss := some 110
    take_profit := some 90 }

def t0X : PaperTrader := PaperTrader.start 5000

/-- The position produced by opening `dX` on `t0X` at market price 100:
margin 50, notional 150, entry 100.01, fee 0.075, liquidation ≈ 67.07. -/
def pos1X : Position :=
  { pair := btcPair, direction := .LONG, entry_price := 10001 / 100,
    current_price := 100, quantity := 15000 / 10001, leverage := 3,
    stop_loss := 90, take_profit := 120, margin_used := 50, unrealized_pnl := 0,
    entry_fee := 3 / 40, funding_paid := 0, opened_at := 0,
    trailing_stop_distance := none, highest_price := 10001 / 100,
    lowest_price := 10001 / 100, liquidation_price := 5030503 / 75000 }

/-- The ledger after that entry: 5000 − 50 − 0.075 = 4949.925 cash. -/
def t1X : PaperTrader :=
  { balance := 197997 / 40, initial_balance := 5000,
    positions := [(btcPair, pos1X)], peak_balance := 5000 }

/-- A reachable state with an open LONG whose mark price rose well above
entry: balance 5000 start, 1 % entry at 100, price updated to 200. -/
def tBadX : PaperTrader := trader_upd_price t1X btcPair 200

/-- A LONG position whose liquidation, stop and take-profit levels are all
crossed simultaneously by an extreme price of 1. -/
def pMultiX : Position :=
  { pair := btcPair, direction := .LONG, entry_price := 100, current_price := 100,
    quantity := 1, leverage := 3, stop_loss := 50, take_profit := 1,
    margin_used := 100, unrealized_pnl := 0, entry_fee := 0, funding_paid := 0,
    opened_at := 0, trailing_stop_distance := none, highest_price := 100,
    lowest_price := 100, liquidation_price := 70 }

/-- A position as restored from persistence by `PositionManager.initialize`:
stop_loss = 0, take_profit = 0, liquidation_price = 0. -/
def pZeroX : Position :=
  { pair := btcPair, direction := .LONG, entry_price := 100, current_price := 100,
    quantity := 1, leverage := 3, stop_loss := 0, take_profit := 0,
    margin_used := 100, unrealized_pnl := 0, entry_fee := 0, funding_paid := 0,
    opened_at := 0, trailing_stop_distance := none, highest_price := 100,
    lowest_price := 100, liquidation_price := 0 }

/-- A LONG position with an active trailing stop. -/
def pTrailLX : Position :=
  { pair := btcPair, direction := .LONG, entry_price := 100, current_price := 100,
    quantity := 1, leverage := 3, stop_loss := 90, take_profit := 0,
    margin_used := 100, unrealized_pnl := 0, entry_fee := 0, funding_paid := 0,
    opened_at := 0, trailing_stop_distance := some 5, highest_price := 100,
    lowest_price := 100, liquidation_price := 70 }

/-- A SHORT position with an active trailing stop and a set stop. -/
def pTrailSX : Position :=
  { pair := btcPair, direction := .SHORT, entry_price := 100, current_price := 100,
    quantity := 1, leverage := 3, stop_loss := 110, take_profit := 0,
    margin_used := 100, unrealized_pnl := 0, entry_fee := 0, funding_paid := 0,
    opened_at := 0, trailing_stop_distance := some 5, highest_price := 100,
    lowest_price := 100, liquidation_price := 130 }

def opsTrailX : List PriceOp :=
  [PriceOp.upd 120, PriceOp.trail, PriceOp.upd 80, PriceOp.trail]

/-- LONG position to be closed while another position stays open. -/
def posAX : Position :=
  { pair := altPair, direction := .LONG, entry_price := 100, current_price := 100,
    quantity := 1, leverage := 2, stop_loss := 0, take_profit := 0,
    margin_used := 50, unrealized_pnl := 0, entry_fee := 0, funding_paid := 0,
    opened_at := 0, trailing_stop_distance := none, highest_price := 100,
    lowest_price := 100, liquidation_price := 60 }

/-- LONG position carrying a large unrealized gain that stays open. -/
def posBX : Position :=
  { pair := btcPair, direction := .LONG, entry_price := 100, current_price := 200,
    quantity := 5, leverage := 5, stop_loss := 0, take_profit := 0,
    margin_used := 100, unrealized_pnl := 500, entry_fee := 0, funding_paid := 0,
    opened_at := 0, trailing_stop_distance := none, highest_price := 200,
    lowest_price := 100, liquidation_price := 81 }

/-- Ledger with two open positions, the BTC one deep in unrealized profit. -/
def t9X : PaperTrader :=
  { balance := 1000, initial_balance := 1000,
    positions := [(altPair, posAX), (btcPair, posBX)], peak_balance := 1000 }

/-- The real circuit-breaker thresholds: pause −2 %, day stop −3 %, full stop
−10 %. -/
def sCBX : CBSettings :=
  { daily_loss_pause_pct := -(1 / 50)
    daily_loss_stop_pct := -(3 / 100)
    total_drawdown_stop_pct := -(1 / 10) }

/-- A circuit breaker that has entered FULL_STOP. -/
def cbFSX : CircuitBreaker :=
  { daily_start_equity := 1000, initial_equity := 1000, paused_until := none,
    stopped_for_day := false, full_stop := true, today := none }

/-- A day rollover followed by a check at fully recovered equity. -/
def cbOpsX : List CBOp := [CBOp.newDay 500 dayX, CBOp.chk 2000 0]

/-! ### Association-list helper lemmas -/

theorem posLookup_posErase_self (k : String) (l : PosMap) :
    posLookup k (posErase k l) = none := by
  induction l with
  | nil => rfl
  | cons e rest ih =>
    rcases e with ⟨k', v⟩
    by_cases h : k' = k
    · simpa [posErase, List.filter_cons, h] using ih
    · simpa [posErase, List.filter_cons, h, posLookup] using ih

theorem posLookup_posInsert_self (k : String) (v : Position) (l : PosMap) :
    posLookup k (posInsert k v l) = some v := by
  simp [posInsert, posLookup]

theorem posLookup_posModify_self (k : String) (f : Position → Position) (l : PosMap) :
    posLookup k (posModify k f l) = (posLookup k l).map f := by
  induction l with
  | nil => rfl
  | cons e rest ih =>
    rcases e with ⟨k', v⟩
    by_cases h : k' = k
    · rw [show posModify k f ((k', v) :: rest) = (k', f v) :: posModify k f rest from by
        simp [posModify, h]]
      simp [posLookup, h]
    · rw [show posModify k f ((k', v) :: rest) = (k', v) :: posModify k f rest from by
        simp [posModify, h]]
      simp [posLookup, h, ih]

theorem posModify_eq_nil {k : String} {f : Position → Position} {l : PosMap}
    (h : posModify k f l = []) : l = [] := by
  cases l with
  | nil => rfl
  | cons e rest =>
    rcases e with ⟨k', v⟩
    simp [posModify] at h

theorem posLookup_ne_nil {k : String} {l : PosMap} {v : Position}
    (h : posLookup k l = some v) : l ≠ [] := by
  intro hl; subst hl; simp [posLookup] at h

/-! ### Inversion lemmas for open / close -/

theorem open_position_some_eq {s : Settings} {t : PaperTrader} {d : TradeDecision}
    {cp now : ℚ} {t' : PaperTrader} {pos : Position}
    (h : open_position s t d cp now = some (t', pos)) :
    pos = open_new_position s t d cp now
    ∧ t' = { t with
               balance := t.balance - open_total_cost s t d,
               positions := posInsert d.pair (open_new_position s t d cp now) t.positions }
    ∧ open_total_cost s t d ≤ t.balance
    ∧ posLookup d.pair t.positions = none := by
  unfold open_position at h
  split at h
  · exact absurd h (by simp)
  · rename_i hdup
    split at h
    · exact absurd h (by simp)
    · rename_i hins
      rw [Option.some.injEq] at h
      have h1 := congrArg Prod.fst h
      have h2 := congrArg Prod.snd h
      simp only at h1 h2
      refine ⟨h2.symm, h1.symm, le_of_not_lt hins, ?_⟩
      rcases hx : posLookup d.pair t.positions with _ | q
      · rfl
      · exact absurd (by simp [hx]) hdup

theorem close_position_some_eq {s : Settings} {t : PaperTrader} {pair : String}
    {cp : ℚ} {p : Position} (hp : posLookup pair t.positions = some p) :
    close_position s t pair cp =
      some (close_result_trader s t p pair cp, close_result_info s p pair cp) := by
  unfold close_position
  rw [hp]

theorem close_position_none_eq {s : Settings} {t : PaperTrader} {pair : String}
    {cp : ℚ} (hp : posLookup pair t.positions = none) :
    close_position s t pair cp = none := by
  unfold close_position
  rw [hp]

/-! ### Field-preservation lemmas for the price-update operations -/

theorem updatePositionPrice_direction (p : Position) (cp : ℚ) :
    (updatePositionPrice p cp).direction = p.direction := by
  simp only [updatePositionPrice]
  split <;> split <;> rfl

theorem updatePositionPrice_liq (p : Position) (cp : ℚ) :
    (updatePositionPrice p cp).liquidation_price = p.liquidation_price := by
  simp only [updatePositionPrice]
  split <;> split <;> rfl

theorem updatePositionPrice_opened_at (p : Position) (cp : ℚ) :
    (updatePositionPrice p cp).opened_at = p.opened_at := by
  simp only [updatePositionPrice]
  split <;> split <;> rfl

theorem updatePositionPrice_stop_loss (p : Position) (cp : ℚ) :
    (updatePositionPrice p cp).stop_loss = p.stop_loss := by
  simp only [updatePositionPrice]
  split <;> split <;> rfl

theorem updatePositionPrice_trailing (p : Position) (cp : ℚ) :
    (updatePositionPrice p cp).trailing_stop_distance = p.trailing_stop_distance := by
  simp only [updatePositionPrice]
  split <;> split <;> rfl

theorem updateTrailingStops_direction (p : Position) :
    (updateTrailingStops p).direction = p.direction := by
  unfold updateTrailingStops
  repeat' split
  all_goals rfl

theorem updateTrailingStops_liq (p : Position) :
    (updateTrailingStops p).liquidation_price = p.liquidation_price := by
  unfold updateTrailingStops
  repeat' split
  all_goals rfl

theorem updateTrailingStops_opened_at (p : Position) :
    (updateTrailingStops p).opened_at = p.opened_at := by
  unfold updateTrailingStops
  repeat' split
  all_goals rfl

/-- For a LONG position a trailing-stop update never lowers the stop. -/
theorem updateTrailingStops_long_mono (p : Position) (hdir : p.direction = .LONG) :
    p.stop_loss ≤ (updateTrailingStops p).stop_loss := by
  unfold updateTrailingStops
  split
  · exact le_refl _
  · split
    · exact le_refl _
    · split
      · split
        · rename_i hlt
          exact le_of_lt hlt
        · exact le_refl _
      · rename_i heq
        rw [hdir] at heq
        exact Direction.noConfusion heq

/-- For a SHORT position with a set (nonzero) stop, a trailing-stop update
never raises the stop. -/
theorem updateTrailingStops_short_mono (p : Position) (hdir : p.direction = .SHORT)
    (hsl : p.stop_loss ≠ 0) :
    (updateTrailingStops p).stop_loss ≤ p.stop_loss := by
  unfold updateTrailingStops
  split
  · exact le_refl _
  · split
    · exact le_refl _
    · split
      · rename_i heq
        rw [hdir] at heq
        exact Direction.noConfusion heq
      · split
        · rename_i hcond
          rcases hcond with hlt | hzero
          · exact le_of_lt hlt
          · exact absurd hzero hsl
        · exact le_refl _

/-! ### Trader-level lookup lemmas -/

theorem posLookup_trader_upd_price (t : PaperTrader) (pair : String) (cp : ℚ) :
    posLookup pair (trader_upd_price t pair cp).positions
      = (posLookup pair t.positions).map (fun p => updatePositionPrice p cp) := by
  simp [trader_upd_price, posLookup_posModify_self]

theorem posLookup_trader_upd_trailing (t : PaperTrader) (pair : String) :
    posLookup pair (trader_upd_trailing t pair).positions
      = (posLookup pair t.positions).map updateTrailingStops := by
  simp [trader_upd_trailing, posLookup_posModify_self]

/-! ### Ledger reachability invariant -/

/-- In every reachable ledger state the peak balance is positive, and whenever
no positions are open the cash balance does not exceed the peak balance. -/
theorem reach_invariant {s : Settings} {t : PaperTrader} (h : Reach s t) :
    0 < t.peak_balance ∧ (t.positions = [] → t.balance ≤ t.peak_balance) := by
  induction h with
  | start b hb => exact ⟨hb, fun _ => le_refl b⟩
  | opened d cp now ht hop ih =>
    rename_i t t' pos
    obtain ⟨hpos, ht', hle, hnone⟩ := open_position_some_eq hop
    subst ht'
    refine ⟨ih.1, ?_⟩
    intro he
    simp [posInsert] at he
  | closed pair cp ht hcl ih =>
    rename_i t t' info
    rcases hl : posLookup pair t.positions with _ | p
    · rw [close_position_none_eq hl] at hcl
      exact Option.noConfusion hcl
    · rw [close_position_some_eq hl] at hcl
      rw [Option.some.injEq] at hcl
      have h1 := congrArg Prod.fst hcl
      simp only at h1
      subst h1
      refine ⟨lt_max_of_lt_left ih.1, fun _ => le_max_right _ _⟩
  | updPrice pair cp ht ih =>
    refine ⟨ih.1, fun he => ih.2 (posModify_eq_nil he)⟩
  | updTrail pair ht ih =>
    refine ⟨ih.1, fun he => ih.2 (posModify_eq_nil he)⟩
  | setTrail pair dist ht ih =>
    refine ⟨ih.1, fun he => ih.2 (posModify_eq_nil he)⟩
  | funded pair rate ht ih =>
    rename_i t
    rcases hl : posLookup pair t.positions with _ | p
    · simpa [apply_funding_rate, hl] using ih
    · refine ⟨?_, ?_⟩
      · simpa [apply_funding_rate, hl] using ih.1
      · intro he
        exact absurd (posModify_eq_nil (by simpa [apply_funding_rate, hl] using he))
          (posLookup_ne_nil hl)
  | adjusted pair slv tpv ht ih =>
    refine ⟨ih.1, fun he => ih.2 (posModify_eq_nil he)⟩

/-! ### Trigger-evaluation characterization -/

/-- `check_stop_loss_take_profit` as a priority chain over the three crossing
predicates: liquidation strictly first, then stop-loss, then take-profit. -/
theorem check_slt_eq (p : Position) (price : ℚ) :
    check_slt p price =
      if liq_crossed p price then some .liq
      else if sl_crossed p price then some .sl
      else if tp_crossed p price then some .tp
      else none := by
  obtain ⟨pr, dir, ep, cpr, q, lv, sl, tp, mu, up, ef, fp, oa, tsd, hp, lp, lq⟩ := p
  cases dir <;>
    simp [check_slt, liq_crossed, sl_crossed, tp_crossed, adverseCross, favorCross]

theorem check_slt_of_liq (p : Position) (price : ℚ) (h : liq_crossed p price) :
    check_slt p price = some .liq := by
  rw [check_slt_eq, if_pos h]

theorem check_slt_of_sl (p : Position) (price : ℚ) (hnl : ¬ liq_crossed p price)
    (h : sl_crossed p price) : check_slt p price = some .sl := by
  rw [check_slt_eq, if_neg hnl, if_pos h]

theorem check_slt_of_tp (p : Position) (price : ℚ) (hnl : ¬ liq_crossed p price)
    (hns : ¬ sl_crossed p price) (h : tp_crossed p price) :
    check_slt p price = some .tp := by
  rw [check_slt_eq, if_neg hnl, if_neg hns, if_pos h]

theorem check_slt_of_none (p : Position) (price : ℚ) (hnl : ¬ liq_crossed p price)
    (hns : ¬ sl_crossed p price) (hnt : ¬ tp_crossed p price) :
    check_slt p price = none := by
  rw [check_slt_eq, if_neg hnl, if_neg hns, if_neg hnt]

/-! ### Circuit-breaker helper lemmas -/

theorem cbCheck_of_full_stop (s : CBSettings) (cb : CircuitBreaker)
    (e now : ℚ) (h : cb.full_stop = true) : cbCheck s cb e now = (cb, true) := by
  unfold cbCheck
  rw [if_pos h]

theorem cbCheckNewDay_full_stop (cb : CircuitBreaker) (e : ℚ) (d : String) :
    (cbCheckNewDay cb e d).full_stop = cb.full_stop := by
  unfold cbCheckNewDay
  split <;> rfl

theorem cbApply_full_stop (s : CBSettings) (cb : CircuitBreaker) (op : CBOp)
    (h : cb.full_stop = true) : (cbApply s cb op).full_stop = true := by
  cases op with
  | chk e now => rw [cbApply, cbCheck_of_full_stop s cb e now h]; exact h
  | newDay e d => rw [cbApply, cbCheckNewDay_full_stop]; exact h

theorem cbRun_full_stop (s : CBSettings) (cb : CircuitBreaker) (ops : List CBOp)
    (h : cb.full_stop = true) : (cbRun s cb ops).full_stop = true := by
  induction ops generalizing cb with
  | nil => exact h
  | cons op rest ih => exact ih (cbApply s cb op) (cbApply_full_stop s cb op h)

/-! ### Trailing-stop step lemmas -/

theorem applyPriceOp_direction (p : Position) (op : PriceOp) :
    (applyPriceOp p op).direction = p.direction := by
  cases op with
  | upd cp => exact updatePositionPrice_direction p cp
  | trail => exact updateTrailingStops_direction p

theorem applyPriceOp_long_mono (p : Position) (hdir : p.direction = .LONG)
    (op : PriceOp) : p.stop_loss ≤ (applyPriceOp p op).stop_loss := by
  cases op with
  | upd cp => exact le_of_eq (updatePositionPrice_stop_loss p cp).symm
  | trail => exact updateTrailingStops_long_mono p hdir

theorem foldl_stop_loss_mono (ops : List PriceOp) (p : Position)
    (hdir : p.direction = .LONG) :
    p.stop_loss ≤ (ops.foldl applyPriceOp p).stop_loss := by
  induction ops generalizing p with
  | nil => exact le_refl _
  | cons op rest ih =>
    calc p.stop_loss ≤ (applyPriceOp p op).stop_loss := applyPriceOp_long_mono p hdir op
      _ ≤ (rest.foldl applyPriceOp (applyPriceOp p op)).stop_loss :=
        ih (applyPriceOp p op) (by rw [applyPriceOp_direction, hdir])

/-! ### Evaluation of the concrete entry -/

/-- Opening `dX` (LONG BTCUSDT, 1 % at 3x) on a fresh 5000-balance ledger at
market price 100 yields exactly the literal ledger `t1X` / position `pos1X`. -/
theorem openX_eval : open_position sX t0X dX 100 0 = some (t1X, pos1X) := by
  norm_num [open_position, t0X, PaperTrader.start, posLookup, open_total_cost,
    open_margin, open_entry_fee, open_notional, effPct, effLev, orDefault, sX, dX,
    open_new_position, entry_price_of, slipFor, MAJOR_PAIRS, btcPair, open_quantity,
    open_liq_price, orZero, posInsert, posErase, maint_rate, t1X, pos1X]

/-! ### Claim theorems -/

/-- C1: closing an open position credits exactly `margin_used + net_pnl`
(with `net_pnl` the direction-signed price delta times quantity minus entry
fee, exit fee and accumulated funding) back to the balance, and the pair is
absent from the open-position set afterwards. -/
theorem close_position_credits_margin_plus_net_pnl (s : Settings)
    (t : PaperTrader) (pair : String) (p : Position) (cp : ℚ)
    (hp : posLookup pair t.positions = some p) :
    (close_position s t pair cp).map
        (fun r => (r.1.balance, posLookup pair r.1.positions, r.2.net_pnl))
      = some (t.balance + p.margin_used +
                (raw_pnl_of p (exit_price_of s p.direction pair cp)
                  - p.entry_fee - close_exit_fee s p pair cp - p.funding_paid),
              none,
              raw_pnl_of p (exit_price_of s p.direction pair cp)
                - p.entry_fee - close_exit_fee s p pair cp - p.funding_paid) := by
  rw [close_position_some_eq hp]
  simp [close_result_trader, close_result_info, close_new_balance, close_net_pnl,
    posLookup_posErase_self]

/-- C1 witness: concrete close of the freshly opened BTC position. -/
theorem close_position_credits_margin_plus_net_pnl_witness :
    (close_position sX t1X btcPair 100).map
        (fun r => (r.1.balance, posLookup btcPair r.1.positions, r.2.net_pnl))
      = some (t1X.balance + pos1X.margin_used +
                (raw_pnl_of pos1X (exit_price_of sX pos1X.direction btcPair 100)
                  - pos1X.entry_fee - close_exit_fee sX pos1X btcPair 100
                  - pos1X.funding_paid),
              none,
              raw_pnl_of pos1X (exit_price_of sX pos1X.direction btcPair 100)
                - pos1X.entry_fee - close_exit_fee sX pos1X btcPair 100
                - pos1X.funding_paid) :=
  close_position_credits_margin_plus_net_pnl sX t1X btcPair pos1X 100
    (by simp [t1X, posLookup])

/-- C2: a successful entry locks `margin = balance × position_size_pct`,
charges `entry_fee = margin × leverage × taker_fee`, requires
`margin + entry_fee ≤ balance`, and debits exactly `margin + entry_fee`;
when `margin + entry_fee` exceeds the balance the entry is rejected. -/
theorem open_position_margin_fee_balance (s : Settings) (t : PaperTrader)
    (d : TradeDecision) (cp now : ℚ) :
    (∀ t' pos, open_position s t d cp now = some (t', pos) →
        pos.margin_used = t.balance * effPct d s
        ∧ pos.entry_fee = open_entry_fee s t d
        ∧ pos.margin_used + pos.entry_fee ≤ t.balance
        ∧ t'.balance = t.balance - pos.margin_used - pos.entry_fee)
    ∧ (t.balance < open_margin s t d + open_entry_fee s t d →
        open_position s t d cp now = none) := by
  constructor
  · intro t' pos h
    obtain ⟨hpos, ht', hle, _⟩ := open_position_some_eq h
    subst hpos
    subst ht'
    refine ⟨rfl, rfl, hle, ?_⟩
    simp only [open_new_position, open_total_cost]
    ring
  · intro hlt
    have hlt' : t.balance < open_total_cost s t d := hlt
    unfold open_position
    by_cases hdup : (posLookup d.pair t.positions).isSome
    · rw [if_pos hdup]
    · rw [if_neg hdup, if_pos hlt']

/-- C2 witness: the concrete entry succeeds with the exact debit, and an
oversized entry (300 % of capital) is rejected. -/
theorem open_position_margin_fee_balance_witness :
    (pos1X.margin_used = t0X.balance * effPct dX sX
      ∧ pos1X.entry_fee = open_entry_fee sX t0X dX
      ∧ pos1X.margin_used + pos1X.entry_fee ≤ t0X.balance
      ∧ t1X.balance = t0X.balance - pos1X.margin_used - pos1X.entry_fee)
    ∧ open_position sX t0X dRejX 100 0 = none :=
  ⟨(open_position_margin_fee_balance sX t0X dX 100 0).1 t1X pos1X openX_eval,
   (open_position_margin_fee_balance sX t0X dRejX 100 0).2 (by
      norm_num [open_margin, open_entry_fee, open_notional, effPct, effLev,
        orDefault, t0X, PaperTrader.start, sX, dRejX])⟩

/-- C3: `check_stop_loss_take_profit` evaluates liquidation before stop-loss
before take-profit with direction-aware comparisons (LONG: liq/SL at
`price ≤ level`, TP at `price ≥ level`; SHORT mirrored), returning the first
set level crossed — `liq` over `sl` over `tp` on simultaneous crossings. -/
theorem check_slt_priority (p : Position) (price : ℚ) :
    (liq_crossed p price → check_slt p price = some .liq)
    ∧ (¬ liq_crossed p price → sl_crossed p price → check_slt p price = some .sl)
    ∧ (¬ liq_crossed p price → ¬ sl_crossed p price → tp_crossed p price →
        check_slt p price = some .tp)
    ∧ (¬ liq_crossed p price → ¬ sl_crossed p price → ¬ tp_crossed p price →
        check_slt p price = none) :=
  ⟨check_slt_of_liq p price, check_slt_of_sl p price,
   check_slt_of_tp p price, check_slt_of_none p price⟩

/-- C3 witness: a LONG whose liquidation, stop and take-profit levels are all
crossed at once by the extreme price 1 resolves to `liq`. -/
theorem check_slt_priority_witness :
    liq_crossed pMultiX 1 ∧ sl_crossed pMultiX 1 ∧ tp_crossed pMultiX 1
    ∧ check_slt pMultiX 1 = some .liq :=
  ⟨by decide, by decide, by decide, (check_slt_priority pMultiX 1).1 (by decide)⟩

/-- C10: zero-valued protective levels are inert for either direction —
`stop_loss = 0` never yields `sl`, `take_profit = 0` never yields `tp`, and
`liquidation_price ≤ 0` never yields `liq`, at any price. -/
theorem zero_levels_inert (p : Position) (price : ℚ) :
    (p.stop_loss = 0 → check_slt p price ≠ some .sl)
    ∧ (p.take_profit = 0 → check_slt p price ≠ some .tp)
    ∧ (p.liquidation_price ≤ 0 → check_slt p price ≠ some .liq) := by
  refine ⟨?_, ?_, ?_⟩
  · intro h0
    rw [check_slt_eq]
    split
    · simp
    · split
      · rename_i hsl
        exact absurd h0 hsl.1
      · split <;> simp
  · intro h0
    rw [check_slt_eq]
    split
    · simp
    · split
      · simp
      · split
        · rename_i htp
          exact absurd h0 htp.1
        · simp
  · intro h0
    rw [check_slt_eq]
    split
    · rename_i hliq
      exact absurd hliq.1 (not_lt.mpr h0)
    · split
      · simp
      · split <;> simp

/-- C10 witness: the restored-from-persistence position (all levels zero)
triggers nothing at price 100. -/
theorem zero_levels_inert_witness :
    check_slt pZeroX 100 ≠ some .sl ∧ check_slt pZeroX 100 ≠ some .tp
    ∧ check_slt pZeroX 100 ≠ some .liq :=
  ⟨(zero_levels_inert pZeroX 100).1 rfl, (zero_levels_inert pZeroX 100).2.1 rfl,
   (zero_levels_inert pZeroX 100).2.2 (by decide)⟩

/-- C5: once `_full_stop` is set, every subsequent `check` returns active
regardless of equity and regardless of interleaved `check_new_day` calls, the
flag survives any sequence of those calls, and only `reset_full_stop` clears
it. -/
theorem full_stop_terminal (s : CBSettings) (cb : CircuitBreaker)
    (h : cb.full_stop = true) :
    (∀ ops : List CBOp, (cbRun s cb ops).full_stop = true)
    ∧ (∀ ops : List CBOp, ∀ e now : ℚ, (cbCheck s (cbRun s cb ops) e now).2 = true)
    ∧ (cbResetFullStop cb).full_stop = false := by
  refine ⟨fun ops => cbRun_full_stop s cb ops h, fun ops e now => ?_, rfl⟩
  rw [cbCheck_of_full_stop s _ e now (cbRun_full_stop s cb ops h)]

/-- C5 witness: after a day rollover and a check at fully recovered equity,
the breaker is still in FULL_STOP and still reports active. -/
theorem full_stop_terminal_witness :
    (cbRun sCBX cbFSX cbOpsX).full_stop = true
    ∧ (cbCheck sCBX (cbRun sCBX cbFSX cbOpsX) 2000 1).2 = true
    ∧ (cbResetFullStop cbFSX).full_stop = false :=
  ⟨(full_stop_terminal sCBX cbFSX rfl).1 cbOpsX,
   (full_stop_terminal sCBX cbFSX rfl).2.1 cbOpsX 2000 1,
   (full_stop_terminal sCBX cbFSX rfl).2.2⟩

/-- C7: the trailing stop is a one-directional ratchet — for a LONG,
`stop_loss` is non-decreasing across any sequence of `update_trailing_stops`
and `update_position_price` calls; for a SHORT with a set (nonzero) stop, no
such step ever raises the stop. -/
theorem trailing_stop_ratchet (p : Position) :
    (p.direction = .LONG → ∀ ops : List PriceOp,
        p.stop_loss ≤ (ops.foldl applyPriceOp p).stop_loss)
    ∧ (p.direction = .SHORT → p.stop_loss ≠ 0 → ∀ op : PriceOp,
        (applyPriceOp p op).stop_loss ≤ p.stop_loss) := by
  refine ⟨fun hdir ops => foldl_stop_loss_mono ops p hdir, fun hdir hsl op => ?_⟩
  cases op with
  | upd cp => exact le_of_eq (updatePositionPrice_stop_loss p cp)
  | trail => exact updateTrailingStops_short_mono p hdir hsl

/-- C7 witness: concrete LONG ratchet over a rise-then-fall price path, and a
SHORT trailing update that does not raise the stop. -/
theorem trailing_stop_ratchet_witness :
    pTrailLX.stop_loss ≤ (opsTrailX.foldl applyPriceOp pTrailLX).stop_loss
    ∧ (applyPriceOp pTrailSX PriceOp.trail).stop_loss ≤ pTrailSX.stop_loss :=
  ⟨(trailing_stop_ratchet pTrailLX).1 rfl opsTrailX,
   (trailing_stop_ratchet pTrailSX).2 rfl (by decide) PriceOp.trail⟩

/-- C9 counterexample: closing the XRP position of `t9X` while the BTC
position holds a 500 USDT unrealized gain updates `_peak_balance` to
`max(peak, new balance)`, which differs from `max(peak, new total equity)` —
the code tracks the cash balance, not equity, at closes. -/
theorem close_position_peak_not_equity_counterexample :
    (close_position sX t9X altPair 100).map
        (fun r => decide (r.1.peak_balance
          = max t9X.peak_balance (total_equity r.1)))
      = some false := by
  rw [close_position_some_eq
    (show posLookup altPair t9X.positions = some posAX by simp [t9X, posLookup])]
  simp only [Option.map_some', Option.some.injEq, decide_eq_false_iff_not]
  have hne1 : ("XRPUSDT" : String) ≠ "BTCUSDT" := by decide
  have hne2 : ("XRPUSDT" : String) ≠ "ETHUSDT" := by decide
  have hne3 : ("BTCUSDT" : String) ≠ "XRPUSDT" := by decide
  norm_num [close_result_trader, close_new_balance, close_net_pnl, raw_pnl_of,
    exit_price_of, close_exit_fee, slipFor, MAJOR_PAIRS, altPair, btcPair,
    posAX, posBX, t9X, total_equity, posErase, List.filter, max_def, sX,
    hne1, hne2, hne3]

/-- C9 amended: on every close, `_peak_balance` becomes the maximum of its
previous value and the new cash balance (prior balance + margin_used +
net_pnl); it is therefore monotonically non-decreasing and tracks the
all-time high of the cash balance (not of total equity). -/
theorem close_position_peak_update (s : Settings) (t : PaperTrader)
    (pair : String) (p : Position) (cp : ℚ)
    (hp : posLookup pair t.positions = some p) :
    (close_position s t pair cp).map (fun r => r.1.peak_balance)
      = some (max t.peak_balance
                (t.balance + p.margin_used + close_net_pnl s p pair cp))
    ∧ (close_position s t pair cp).map
        (fun r => decide (t.peak_balance ≤ r.1.peak_balance)) = some true := by
  rw [close_position_some_eq hp]
  constructor
  · simp [close_result_trader, close_new_balance]
  · simp [close_result_trader, close_new_balance, le_max_left]

/-- C9 witness: the concrete close of the XRP position of `t9X`. -/
theorem close_position_peak_update_witness :
    (close_position sX t9X altPair 100).map (fun r => r.1.peak_balance)
      = some (max t9X.peak_balance
                (t9X.balance + posAX.margin_used + close_net_pnl sX posAX altPair 100))
    ∧ (close_position sX t9X altPair 100).map
        (fun r => decide (t9X.peak_balance ≤ r.1.peak_balance)) = some true :=
  close_position_peak_update sX t9X altPair posAX 100 (by simp [t9X, posLookup])

/-- C8 counterexample: a reachable ledger state (open 1 % LONG at 100 on a
fresh 5000 balance, then a mark-price update to 200) whose unrealized gain
pushes total equity above `_peak_balance`, making `drawdown_pct` strictly
positive. -/
theorem drawdown_positive_reachable_counterexample :
    Reach sX tBadX ∧ 0 < drawdown_pct tBadX := by
  constructor
  · exact Reach.updPrice btcPair 200
      (Reach.opened dX 100 0 (Reach.start 5000 (by norm_num)) openX_eval)
  · norm_num [drawdown_pct, total_equity, tBadX, trader_upd_price, posModify,
      updatePositionPrice, t1X, pos1X]

/-- C8 amended: `drawdown_pct ≤ 0` holds in every reachable ledger state with
no open positions; with open positions, unrealized gains can lift total
equity above the (balance-tracking) peak and make `drawdown_pct` positive. -/
theorem drawdown_nonpos_when_flat {s : Settings} {t : PaperTrader}
    (h : Reach s t) (hflat : t.positions = []) : drawdown_pct t ≤ 0 := by
  obtain ⟨hpk, hle⟩ := reach_invariant h
  unfold drawdown_pct
  rw [if_neg (ne_of_gt hpk)]
  apply div_nonpos_of_nonpos_of_nonneg
  · rw [sub_nonpos]
    calc total_equity t = t.balance := by simp [total_equity, hflat]
      _ ≤ t.peak_balance := hle hflat
  · exact le_of_lt hpk

/-- C8 witness: the freshly started ledger is flat and at zero drawdown. -/
theorem drawdown_nonpos_when_flat_witness : drawdown_pct t0X ≤ 0 :=
  drawdown_nonpos_when_flat (s := sX) (Reach.start 5000 (by norm_num)) rfl

/-- C6 counterexample: open then immediately close at market price 100 with
zero funding. The realized `net_pnl` is
`−(entry_fee + exit_fee) − 2·quantity·price·slippage`, which differs from the
claimed `−(entry_fee + exit_fee) − 2·notional·slippage`
(`notional = margin × leverage`): the slippage leg is measured on
`quantity × market price = notional/(1+slippage)`, not on the entry notional. -/
theorem roundtrip_formula_counterexample :
    open_position sX t0X dX 100 0 = some (t1X, pos1X)
    ∧ pos1X.funding_paid = 0
    ∧ (close_position sX t1X btcPair 100).map
        (fun r => decide (r.2.net_pnl =
          -(pos1X.entry_fee + r.2.exit_fee)
            - 2 * (pos1X.margin_used * pos1X.leverage) * slipFor sX btcPair))
      = some false := by
  refine ⟨openX_eval, rfl, ?_⟩
  rw [close_position_some_eq
    (show posLookup btcPair t1X.positions = some pos1X by simp [t1X, posLookup])]
  simp only [Option.map_some', Option.some.injEq, decide_eq_false_iff_not]
  norm_num [close_result_info, close_net_pnl, raw_pnl_of, exit_price_of,
    close_exit_fee, slipFor, MAJOR_PAIRS, btcPair, pos1X, sX]

/-- C6 amended: opening and immediately closing at the same market price with
zero funding realizes exactly
`net_pnl = −(entry_fee + exit_fee) − 2·quantity·price·slippage`
(equivalently `−(entry_fee+exit_fee) − 2·notional·slippage/(1+slippage)` for a
LONG and `/(1−slippage)` for a SHORT, with `notional = margin × leverage`),
and it is always a strict loss when the fee and slippage rates, price, size
and leverage are positive. -/
theorem roundtrip_loss (s : Settings) (t : PaperTrader) (d : TradeDecision)
    (cp now : ℚ) (hb : 0 < t.balance) (hpct : 0 < effPct d s)
    (hlev : 0 < effLev d s) (hcp : 0 < cp) (hs0 : 0 < slipFor s d.pair)
    (hs1 : slipFor s d.pair < 1) (hfee : 0 < s.taker_fee) :
    ∀ t' pos, open_position s t d cp now = some (t', pos) →
    ∀ t'' info, close_position s t' d.pair cp = some (t'', info) →
      info.net_pnl
          = -(pos.entry_fee + info.exit_fee) - 2 * pos.quantity * cp * slipFor s d.pair
        ∧ info.net_pnl < 0 := by
  intro t' pos hop t'' info hcl
  obtain ⟨hpos, ht', _, _⟩ := open_position_some_eq hop
  subst hpos
  subst ht'
  rw [close_position_some_eq
    (posLookup_posInsert_self d.pair (open_new_position s t d cp now) t.positions),
    Option.some.injEq] at hcl
  have hinfo := congrArg Prod.snd hcl
  simp only at hinfo
  subst hinfo
  have hN : 0 < open_notional s t d := mul_pos (mul_pos hb hpct) hlev
  have hef : 0 < open_entry_fee s t d := mul_pos hN hfee
  have heq : close_net_pnl s (open_new_position s t d cp now) d.pair cp
      = -(open_entry_fee s t d
            + close_exit_fee s (open_new_position s t d cp now) d.pair cp)
        - 2 * open_quantity s t d cp * cp * slipFor s d.pair := by
    simp only [close_net_pnl, raw_pnl_of, exit_price_of, entry_price_of,
      close_exit_fee, open_new_position]
    cases hd : d.direction <;> simp only [hd] <;> ring
  have hentry : 0 < entry_price_of s d cp := by
    unfold entry_price_of
    cases hd : d.direction <;> simp only [hd]
    · exact mul_pos hcp (by linarith)
    · exact mul_pos hcp (by linarith)
  have hq : 0 < open_quantity s t d cp := div_pos hN hentry
  have hxf : 0 < close_exit_fee s (open_new_position s t d cp now) d.pair cp := by
    simp only [close_exit_fee, exit_price_of, open_new_position]
    cases hd : d.direction <;> simp only [hd]
    · exact mul_pos (mul_pos hq (mul_pos hcp (by linarith))) hfee
    · exact mul_pos (mul_pos hq (mul_pos hcp (by linarith))) hfee
  constructor
  · exact heq
  · show close_net_pnl s (open_new_position s t d cp now) d.pair cp < 0
    rw [heq]
    have hslip : 0 < 2 * open_quantity s t d cp * cp * slipFor s d.pair := by
      have := mul_pos (mul_pos (mul_pos two_pos hq) hcp) hs0
      linarith
    linarith

/-- C6 witness: the concrete BTC round trip at price 100 realizes the exact
fee-plus-slippage loss and is strictly negative. -/
theorem roundtrip_loss_witness :
    (close_result_info sX pos1X btcPair 100).net_pnl
        = -(pos1X.entry_fee + (close_result_info sX pos1X btcPair 100).exit_fee)
          - 2 * pos1X.quantity * 100 * slipFor sX btcPair
    ∧ (close_result_info sX pos1X btcPair 100).net_pnl < 0 :=
  roundtrip_loss sX t0X dX 100 0
    (by norm_num [t0X, PaperTrader.start])
    (by norm_num [effPct, orDefault, dX, sX])
    (by norm_num [effLev, orDefault, dX, sX])
    (by norm_num)
    (by norm_num [slipFor, MAJOR_PAIRS, btcPair, dX, sX])
    (by norm_num [slipFor, MAJOR_PAIRS, btcPair, dX, sX])
    (by norm_num [sX])
    t1X pos1X openX_eval
    (close_result_trader sX t1X pos1X btcPair 100)
    (close_result_info sX pos1X btcPair 100)
    (close_position_some_eq (by simp [t1X, posLookup, dX]))

/-- C4: within the 15 s grace period the kline handler never fires a
stop-loss or take-profit close, while a liquidation-price crossing by the
adverse candle extreme (low for LONG, high for SHORT) closes the position in
every state — liquidation checks are unconditional. -/
theorem kline_grace_and_unconditional_liq (s : Settings) (t : PaperTrader)
    (pair : String) (p : Position) (close_price high low now : ℚ)
    (hp : posLookup pair t.positions = some p) :
    (now - p.opened_at < grace_seconds →
        (on_kline s t pair close_price high low now).2 ≠ some .sl
        ∧ (on_kline s t pair close_price high low now).2 ≠ some .tp)
    ∧ (liq_crossed p (adverse_extreme p.direction high low) →
        (on_kline s t pair close_price high low now).2 = some .liq
        ∧ posLookup pair (on_kline s t pair close_price high low now).1.positions
            = none) := by
  have hl2 : posLookup pair
      (trader_upd_trailing (trader_upd_price t pair close_price) pair).positions
      = some (updateTrailingStops (updatePositionPrice p close_price)) := by
    rw [posLookup_trader_upd_trailing, posLookup_trader_upd_price, hp,
      Option.map_some', Option.map_some']
  have hdir : (updateTrailingStops (updatePositionPrice p close_price)).direction
      = p.direction := by
    rw [updateTrailingStops_direction, updatePositionPrice_direction]
  have hliqp : (updateTrailingStops (updatePositionPrice p close_price)).liquidation_price
      = p.liquidation_price := by
    rw [updateTrailingStops_liq, updatePositionPrice_liq]
  have hoa : (updateTrailingStops (updatePositionPrice p close_price)).opened_at
      = p.opened_at := by
    rw [updateTrailingStops_opened_at, updatePositionPrice_opened_at]
  constructor
  · intro hg
    have hg2 : now - (updateTrailingStops (updatePositionPrice p close_price)).opened_at
        < grace_seconds := by rw [hoa]; exact hg
    constructor
    · simp only [on_kline, hl2]
      rw [if_pos hg2]
      split
      · split <;> simp
      · simp
    · simp only [on_kline, hl2]
      rw [if_pos hg2]
      split
      · split <;> simp
      · simp
  · intro hliqX
    have hlq2 : liq_crossed (updateTrailingStops (updatePositionPrice p close_price))
        (adverse_extreme
          (updateTrailingStops (updatePositionPrice p close_price)).direction high low) := by
      unfold liq_crossed at hliqX ⊢
      rw [hliqp, hdir]
      exact hliqX
    have hfin : on_kline s t pair close_price high low now
        = (close_result_trader s
            (trader_upd_trailing (trader_upd_price t pair close_price) pair)
            (updateTrailingStops (updatePositionPrice p close_price)) pair
            (updateTrailingStops (updatePositionPrice p close_price)).liquidation_price,
           some .liq) := by
      have e1 : on_kline s t pair close_price high low now
          = (match close_position s
                (trader_upd_trailing (trader_upd_price t pair close_price) pair) pair
                (updateTrailingStops (updatePositionPrice p close_price)).liquidation_price with
             | some r => (r.1, some Trigger.liq)
             | none => (trader_upd_trailing (trader_upd_price t pair close_price) pair,
                        some Trigger.liq)) := by
        by_cases hg : now - (updateTrailingStops (updatePositionPrice p close_price)).opened_at
            < grace_seconds
        · simp only [on_kline, hl2]
          rw [if_pos hg, if_pos hlq2]
        · have hfirst : check_slt (updateTrailingStops (updatePositionPrice p close_price))
              (adverse_extreme
                (updateTrailingStops (updatePositionPrice p close_price)).direction high low)
              = some .liq := check_slt_of_liq _ _ hlq2
          simp only [on_kline, hl2]
          rw [if_neg hg, hfirst]
      rw [e1, close_position_some_eq hl2]
    rw [hfin]
    exact ⟨rfl, by simp [close_result_trader, posLookup_posErase_self]⟩

/-- C4 witness: on the concrete open position (opened at time 0), a kline at
time 5 fires neither SL nor TP, and a candle low crossing the liquidation
price closes the position with trigger `liq`. -/
theorem kline_grace_and_unconditional_liq_witness :
    ((on_kline sX t1X btcPair 100 110 50 5).2 ≠ some .sl)
    ∧ ((on_kline sX t1X btcPair 100 110 50 5).2 ≠ some .tp)
    ∧ (on_kline sX t1X btcPair 100 110 50 5).2 = some .liq
    ∧ posLookup btcPair (on_kline sX t1X btcPair 100 110 50 5).1.positions = none := by
  have T := kline_grace_and_unconditional_liq sX t1X btcPair pos1X 100 110 50 5
    (by simp [t1X, posLookup])
  have hg : (5 : ℚ) - pos1X.opened_at < grace_seconds := by
    norm_num [pos1X, grace_seconds]
  have hlq : liq_crossed pos1X (adverse_extreme pos1X.direction 110 50) := by
    constructor
    · norm_num [pos1X]
    · show adverseCross pos1X.direction (adverse_extreme pos1X.direction 110 50)
        pos1X.liquidation_price
      norm_num [pos1X, adverse_extreme, adverseCross]
  exact ⟨(T.1 hg).1, (T.1 hg).2, (T.2 hlq).1, (T.2 hlq).2⟩
